import Mathlib

/-!
Verification of the session-authentication and proxy-lifecycle core of the
Deno live-transcription relay (src/server.ts).

The embedding mirrors the source file:
  * the nonce store (`sessionNonces`, `consumeNonce`, `generateNonce` call
    sites) becomes an association list with unique keys and explicit
    `nowMs : Nat` time passing (JS `Date.now()` in milliseconds);
  * the JWT layer (`createSessionToken` / `verifySessionToken`) wraps a
    model of the external `jose` library, which is not part of the
    repository and is therefore modelled from the spec (see below);
  * the WebSocket proxy session (`handleLiveTranscription`, lines 212-304)
    becomes a step machine over the two sockets' ready states, whose event
    handlers are transcribed from the source and whose environment effects
    (a socket's own state change when it closes or errors, and the effect
    of a `close()` call) follow standard WebSocket semantics;
  * the HTTP router (`handleRequest`, lines 405-465) and the route handlers
    become pure functions from a request plus the mutable server state to a
    response plus the new state.

JavaScript-specific behaviours are modelled faithfully where they are
observable: `!expiry` in `consumeNonce` is falsy for `0` as well as for a
missing entry, `x || d` falls back on the empty string, and
`URLSearchParams.get` returns the first binding of a key.
-/

namespace Server

/-! ## Socket ready states (WebSocket readyState values 0..3) -/

inductive ReadyState where
  | CONNECTING
  | OPEN
  | CLOSING
  | CLOSED
deriving DecidableEq, Repr

/-- Effect of calling `close()` on a socket: a no-op on an already closed
socket, otherwise the socket moves to `CLOSING`. -/
def applyClose : ReadyState → ReadyState
  | ReadyState.CLOSED => ReadyState.CLOSED
  | _ => ReadyState.CLOSING

/-! ## The proxy session step machine (src/server.ts lines 212-304)

`α` is the opaque type of relayed message payloads (binary audio frames one
way, transcription JSON the other); the proxy never inspects them. -/

structure SessionState where
  client : ReadyState
  upstream : ReadyState
deriving DecidableEq, Repr

inductive SessionEvent (α : Type) where
  | clientMessage (data : α)
  | upstreamMessage (data : α)
  | clientClose
  | clientError
  | upstreamClose
  | upstreamError
deriving DecidableEq, Repr

/-- The error frame shape built by `sendError` (src lines 166-170, 193-202). -/
structure ErrorMessage where
  type : String
  description : String
  code : String
deriving DecidableEq, Repr

inductive ProxyAction (α : Type) where
  | sendToUpstream (data : α)
  | sendToClient (data : α)
  | sendFrame (msg : ErrorMessage)
  | closeUpstream
  | closeClient
  | closeClientWith (code : Nat) (reason : String)
deriving DecidableEq, Repr

/-- `sendError(socket, error, code)` (src lines 193-202): sends the JSON
error frame only when the socket is OPEN. The source gives `code` the
default value "UNKNOWN_ERROR"; every call site in scope passes it
explicitly, so the default is not modelled. -/
def sendErrorActs {α : Type} (socketState : ReadyState) (description code : String) :
    List (ProxyAction α) :=
  if socketState = ReadyState.OPEN then
    [ProxyAction.sendFrame { type := "Error", description := description, code := code }]
  else []

/-- The event handlers installed by `handleLiveTranscription` once the
upstream socket is open (src lines 248-292), transcribed case by case:
  * client `onmessage` (248-252): forward to upstream iff upstream is OPEN;
  * upstream `onmessage` (255-259): forward to client iff client is OPEN;
  * client `onclose` (262-267) and `onerror` (270-275): close the upstream
    socket (`deepgramWs` is non-null in the relaying phase, so the null
    guard of the source is vacuous here);
  * upstream `onclose` (278-283): close the client iff it is OPEN;
  * upstream `onerror` (286-292): `sendError(..., "DEEPGRAM_ERROR")`, then
    close the client iff it is OPEN. -/
def handleEvent {α : Type} (s : SessionState) : SessionEvent α → List (ProxyAction α)
  | SessionEvent.clientMessage d =>
      if s.upstream = ReadyState.OPEN then [ProxyAction.sendToUpstream d] else []
  | SessionEvent.upstreamMessage d =>
      if s.client = ReadyState.OPEN then [ProxyAction.sendToClient d] else []
  | SessionEvent.clientClose => [ProxyAction.closeUpstream]
  | SessionEvent.clientError => [ProxyAction.closeUpstream]
  | SessionEvent.upstreamClose =>
      if s.client = ReadyState.OPEN then [ProxyAction.closeClient] else []
  | SessionEvent.upstreamError =>
      sendErrorActs s.client "Deepgram connection error" "DEEPGRAM_ERROR"
        ++ (if s.client = ReadyState.OPEN then [ProxyAction.closeClient] else [])

/-- Environment semantics: the state change of the socket the event is
about, before its handler runs. A socket that fires `close` is CLOSED; a
socket that fires `error` is being torn down by the runtime. -/
def eventEffect {α : Type} : SessionEvent α → SessionState → SessionState
  | SessionEvent.clientClose, s => { s with client := ReadyState.CLOSED }
  | SessionEvent.clientError, s => { s with client := applyClose s.client }
  | SessionEvent.upstreamClose, s => { s with upstream := ReadyState.CLOSED }
  | SessionEvent.upstreamError, s => { s with upstream := applyClose s.upstream }
  | _, s => s

/-- Environment semantics of a handler action on the two ready states. -/
def applyAction {α : Type} (s : SessionState) : ProxyAction α → SessionState
  | ProxyAction.closeUpstream => { s with upstream := applyClose s.upstream }
  | ProxyAction.closeClient => { s with client := applyClose s.client }
  | ProxyAction.closeClientWith _ _ => { s with client := applyClose s.client }
  | _ => s

/-- One step of the session: the event updates its own socket, the handler
from the source runs and its actions are applied. Returns the handler's
actions (the observable sends/closes) and the resulting state. -/
def stepSession {α : Type} (s : SessionState) (e : SessionEvent α) :
    List (ProxyAction α) × SessionState :=
  let s1 := eventEffect e s
  let acts := handleEvent s1 e
  (acts, acts.foldl applyAction s1)

/-- The relaying phase starts with both legs open (src line 236-245: the
message/close/error handlers are installed only after the upstream `onopen`
resolved, with the client socket freshly upgraded). -/
def relayingStart : SessionState :=
  { client := ReadyState.OPEN, upstream := ReadyState.OPEN }

/-- Reachability of session states under the step machine. -/
inductive Reachable {α : Type} : SessionState → SessionState → Prop
  | refl (s : SessionState) : Reachable s s
  | tail {s t : SessionState} (e : SessionEvent α) :
      Reachable s t → Reachable s (stepSession t e).2

def isCloseOrError {α : Type} : SessionEvent α → Bool
  | SessionEvent.clientClose => true
  | SessionEvent.clientError => true
  | SessionEvent.upstreamClose => true
  | SessionEvent.upstreamError => true
  | _ => false

/-- Both legs of the session are torn down: neither socket is OPEN. -/
def Down (s : SessionState) : Prop :=
  s.client ≠ ReadyState.OPEN ∧ s.upstream ≠ ReadyState.OPEN

/-- The `catch` block of `handleLiveTranscription` (src lines 294-303):
`sendError(clientSocket, err, "CONNECTION_FAILED")`, then
`clientSocket.close(3000, "Setup failed")` when the client is OPEN, then
`deepgramWs.close()` when the upstream handle is non-null. The block
returns normally, containing the failure to this session. -/
def handleSetupFailure {α : Type} (client : ReadyState) (deepgram : Option ReadyState)
    (errMessage : String) : List (ProxyAction α) :=
  sendErrorActs client errMessage "CONNECTION_FAILED"
    ++ (if client = ReadyState.OPEN then [ProxyAction.closeClientWith 3000 "Setup failed"] else [])
    ++ (match deepgram with
        | some _ => [ProxyAction.closeUpstream]
        | none => [])

/-- The error frames among a list of proxy actions. -/
def errorFrames {α : Type} (acts : List (ProxyAction α)) : List ErrorMessage :=
  acts.filterMap (fun a =>
    match a with
    | ProxyAction.sendFrame m => some m
    | _ => none)

/-! ## Nonce store (src/server.ts lines 59-88)

`sessionNonces : Map<string, number>` maps nonce values to absolute expiry
timestamps in milliseconds. A JS `Map` has unique keys; the model keeps
that invariant by construction in `setNonce`. -/

abbrev NonceStore : Type := List (String × Nat)

def NONCE_TTL_MS : Nat := 5 * 60 * 1000

def lookupNonce : NonceStore → String → Option Nat
  | [], _ => none
  | p :: rest, k => if p.1 = k then some p.2 else lookupNonce rest k

/-- `sessionNonces.delete(nonce)`. -/
def eraseNonce (s : NonceStore) (k : String) : NonceStore :=
  s.filter (fun p => decide (p.1 ≠ k))

/-- `sessionNonces.set(nonce, expiry)`: insert-or-update, keys stay unique. -/
def setNonce (s : NonceStore) (k : String) (e : Nat) : NonceStore :=
  (k, e) :: eraseNonce s k

/-- `consumeNonce` (src lines 75-80):
```
const expiry = sessionNonces.get(nonce);
if (!expiry) return false;
sessionNonces.delete(nonce);
return Date.now() < expiry;
```
`!expiry` is truthy for a missing entry and for the (unreachable for issued
nonces) expiry value `0`, in which cases nothing is deleted. -/
def consumeNonce (nowMs : Nat) (s : NonceStore) (nonce : String) : Bool × NonceStore :=
  match lookupNonce s nonce with
  | none => (false, s)
  | some expiry =>
      if expiry = 0 then (false, s)
      else (decide (nowMs < expiry), eraseNonce s nonce)

/-- The expired-entry sweep shared by the 60s interval (src lines 83-88) and
`handleServeIndex` (src lines 318-321): delete every entry with
`now >= expiry`. -/
def sweepNonces (nowMs : Nat) (s : NonceStore) : NonceStore :=
  s.filter (fun p => decide (nowMs < p.2))

/-- Every stored expiry is positive. This holds for every store whose
entries were written by `handleServeIndex`, which always stores
`Date.now() + NONCE_TTL_MS ≥ NONCE_TTL_MS > 0`. -/
def NoncesWF (s : NonceStore) : Prop := ∀ p ∈ s, 0 < p.2

/-! ## Session tokens (src/server.ts lines 55-61, 102-119)

`createSessionToken` and `verifySessionToken` delegate the JWT mechanics to
the external `jose` library, which is not part of this repository. The
signing/verification layer below is therefore modelled from the spec
("symmetric MAC-based scheme (HMAC-SHA256 or equivalent)", claims `iat` and
`exp` with a one-hour expiry, verification checks the signature and that
the current time is before the embedded expiry, and fails on malformed
input): a token is the decimal encoding of `iat`, `exp` and a keyed MAC
over them, `;`-separated, and the MAC is an executable stand-in keyed hash
whose only property used anywhere is functionality (equal inputs give equal
outputs — no collision assumption is ever relied on). -/

/-- Little-endian base-10 digits, structurally recursive on a fuel bound. -/
def toDigitsAux : Nat → Nat → List Nat
  | 0, _ => []
  | fuel + 1, n => if n = 0 then [] else n % 10 :: toDigitsAux fuel (n / 10)

def toDigits10 (n : Nat) : List Nat := toDigitsAux n n

def ofDigits10 : List Nat → Nat
  | [] => 0
  | d :: ds => d + 10 * ofDigits10 ds

def digitChar (d : Nat) : Char := Char.ofNat (48 + d)

def charVal (c : Char) : Nat := c.toNat - 48

def isDigitChar (c : Char) : Bool := 48 ≤ c.toNat && c.toNat ≤ 57

def natToChars (n : Nat) : List Char := (toDigits10 n).map digitChar

/-- Longest digit run at the head of the character list, plus the rest. -/
def readDigits : List Char → List Char × List Char
  | [] => ([], [])
  | c :: cs =>
      if isDigitChar c then
        let r := readDigits cs
        (c :: r.1, r.2)
      else ([], c :: cs)

def digitsVal (ds : List Char) : Nat := ofDigits10 (ds.map charVal)

/-- Modelled from the spec: parsing of the (modelled) JWT wire format
`digits(iat) ; digits(exp) ; digits(sig)`; anything else is malformed. -/
def parseToken (cs : List Char) : Option (Nat × Nat × Nat) :=
  let r1 := readDigits cs
  match r1.2 with
  | ';' :: rest1 =>
      let r2 := readDigits rest1
      match r2.2 with
      | ';' :: rest2 =>
          let r3 := readDigits rest2
          match r3.2 with
          | [] => some (digitsVal r1.1, digitsVal r2.1, digitsVal r3.1)
          | _ => none
      | _ => none
  | _ => none

/-- Modelled from the spec: executable stand-in for the HMAC-SHA256 tag of
the claims under the process-wide secret. Only functionality is used. -/
def hashString (s : String) : Nat :=
  s.data.foldl (fun h c => h * 131 + c.toNat + 1) 7

def macSig (secret : String) (iat expiry : Nat) : Nat :=
  hashString secret * 1000003 + iat * 1009 + expiry * 1013 + 17

def encodeToken (iat expiry sig : Nat) : String :=
  ⟨natToChars iat ++ ';' :: (natToChars expiry ++ ';' :: natToChars sig)⟩

/-- `JWT_EXPIRY = "1h"` (src line 61), in seconds. -/
def JWT_EXPIRY_S : Nat := 3600

/-- `createSessionToken` (src lines 102-107): signs `{iat: floor(now/1000)}`
with expiration time one hour from now under the process secret. -/
def createSessionToken (secret : String) (nowMs : Nat) : String :=
  let iat := nowMs / 1000
  encodeToken iat (iat + JWT_EXPIRY_S) (macSig secret iat (iat + JWT_EXPIRY_S))

/-- `verifySessionToken` (src lines 112-119): `jose.jwtVerify` inside
try/catch, so every failure (malformed token, wrong signature, elapsed
expiry) yields `false` rather than an exception. The verification itself is
modelled from the spec: signature check plus `now < exp`. -/
def verifySessionToken (secret : String) (nowMs : Nat) (token : String) : Bool :=
  match parseToken token.data with
  | none => false
  | some (iat, expiry, sig) =>
      decide (sig = macSig secret iat expiry) && decide (nowMs / 1000 < expiry)

/-! ## String helpers

Structural character-list versions of the JS string operations the server
uses (`split`, `trim`, `startsWith`, `slice`, `toLowerCase`), so that every
definition reduces in the kernel. -/

/-- JS `s.split(sep)` for a one-character separator: `"" ↦ [""]`,
`"," ↦ ["", ""]`, no merging of empty fields. -/
def splitOnChar (sep : Char) : List Char → List (List Char)
  | [] => [[]]
  | c :: cs =>
      match splitOnChar sep cs with
      | [] => [[c]]
      | h :: t => if c = sep then [] :: h :: t else (c :: h) :: t

/-- JS `s.trim()`: strip leading and trailing whitespace. -/
def trimChars (cs : List Char) : List Char :=
  ((cs.dropWhile Char.isWhitespace).reverse.dropWhile Char.isWhitespace).reverse

/-- JS `s.startsWith(pre)`. -/
def startsWithChars : List Char → List Char → Bool
  | [], _ => true
  | _, [] => false
  | p :: ps, c :: cs => p = c && startsWithChars ps cs

def strToLower (s : String) : String := ⟨s.data.map Char.toLower⟩

/-- JS `x || d` on a nullable string: `null` and `""` both fall back. -/
def orDefault (o : Option String) (d : String) : String :=
  match o with
  | none => d
  | some s => if s = "" then d else s

/-! ## Upstream URL construction (src/server.ts lines 31-36, 179-188) -/

def DEFAULT_MODEL : String := "nova-2"

def DEEPGRAM_WS_URL : String := "wss://api.deepgram.com/v1/listen"

/-- Client-supplied query parameters: `URLSearchParams.get` returns the
first binding of a key, or null. -/
abbrev QueryParams : Type := List (String × String)

def getParam (qp : QueryParams) (k : String) : Option String :=
  (qp.find? (fun p => p.1 == k)).map (fun p => p.2)

/-- `buildDeepgramUrl` (src lines 179-188): plain template interpolation of
the six parameter values, no URL-encoding or sanitisation. -/
def buildDeepgramUrl (queryParams : QueryParams) : String :=
  let model := orDefault (getParam queryParams "model") DEFAULT_MODEL
  let encoding := orDefault (getParam queryParams "encoding") "linear16"
  let sampleRate := orDefault (getParam queryParams "sample_rate") "16000"
  let channels := orDefault (getParam queryParams "channels") "1"
  let punctuate := orDefault (getParam queryParams "punctuate") "true"
  let interim_results := orDefault (getParam queryParams "interim_results") "true"
  DEEPGRAM_WS_URL ++ "?model=" ++ model ++ "&encoding=" ++ encoding
    ++ "&sample_rate=" ++ sampleRate ++ "&channels=" ++ channels
    ++ "&punctuate=" ++ punctuate ++ "&interim_results=" ++ interim_results

/-- Names of the `&`-separated query parameters of a URL. -/
def queryParamNames (url : String) : List String :=
  match splitOnChar '?' url.data with
  | _ :: q :: _ =>
      (splitOnChar '&' q).map (fun kv => ⟨(splitOnChar '=' kv).headD []⟩)
  | _ => []

/-! ## HTTP layer (src/server.ts lines 313-349, 405-465) -/

/-- The process-wide configuration fixed at startup: `SESSION_SECRET` and
`REQUIRE_NONCE` (src lines 55-57) and whether `frontend/dist/index.html`
was readable at startup (src lines 90-97). -/
structure Config where
  sessionSecret : String
  requireNonce : Bool
  hasIndexTemplate : Bool
deriving DecidableEq, Repr

/-- The request fields the router inspects. Header accessors return null
for a missing header. -/
structure Request where
  method : String
  path : String
  upgradeHeader : Option String
  secWebSocketProtocol : Option String
  sessionNonce : Option String
  queryParams : QueryParams
deriving DecidableEq, Repr

/-- The responses the server produces, one constructor per `Response`
construction site in the source. `wsUpgrade` marks the successful
`Deno.upgradeWebSocket` call: it carries the echoed subprotocol and the
query parameters handed to `handleLiveTranscription` — the proxy session is
created exactly on this constructor. -/
inductive HttpResponse where
  | preflight
  | indexPage (nonce : String)
  | frontendNotBuilt
  | sessionToken (token : String)
  | invalidNonce
  | expectedWebSocket
  | unauthorized
  | wsUpgrade (protocol : String) (queryParams : QueryParams)
  | metadataResponse (ok : Bool)
  | notFound
deriving DecidableEq, Repr

def statusOf : HttpResponse → Nat
  | HttpResponse.preflight => 204
  | HttpResponse.indexPage _ => 200
  | HttpResponse.frontendNotBuilt => 404
  | HttpResponse.sessionToken _ => 200
  | HttpResponse.invalidNonce => 403
  | HttpResponse.expectedWebSocket => 426
  | HttpResponse.unauthorized => 401
  | HttpResponse.wsUpgrade _ _ => 101
  | HttpResponse.metadataResponse ok => if ok then 200 else 500
  | HttpResponse.notFound => 404

/-- Whether a response hands a socket to the proxy session. -/
def createsSession : HttpResponse → Bool
  | HttpResponse.wsUpgrade _ _ => true
  | _ => false

/-- Structured error body of a response, when it has one: the 403 body is
`{error:{type:"AuthenticationError",code:"INVALID_NONCE",message:...}}`
(src lines 341-344). -/
def errorInfo : HttpResponse → Option ErrorMessage
  | HttpResponse.invalidNonce =>
      some { type := "AuthenticationError"
             description := "Valid session nonce required. Please refresh the page."
             code := "INVALID_NONCE" }
  | _ => none

/-- `handleServeIndex` (src lines 313-331): 404 when no built frontend;
otherwise sweep expired nonces, generate a fresh nonce (`freshNonce`, the
value returned by `generateNonce()`), store it with expiry
`now + NONCE_TTL_MS`, and serve the page with the nonce injected. -/
def handleServeIndex (cfg : Config) (freshNonce : String) (nowMs : Nat)
    (nonces : NonceStore) : HttpResponse × NonceStore :=
  if cfg.hasIndexTemplate then
    (HttpResponse.indexPage freshNonce,
     setNonce (sweepNonces nowMs nonces) freshNonce (nowMs + NONCE_TTL_MS))
  else (HttpResponse.frontendNotBuilt, nonces)

/-- `handleGetSession` (src lines 337-349): when `REQUIRE_NONCE`, the
`X-Session-Nonce` header must be present, non-empty (JS `!nonce` is truthy
on the empty string) and consume successfully, else 403; on success, and
always when nonce enforcement is off, a fresh JWT is issued. -/
def handleGetSession (cfg : Config) (nowMs : Nat) (nonceHeader : Option String)
    (nonces : NonceStore) : HttpResponse × NonceStore :=
  if cfg.requireNonce then
    match nonceHeader with
    | none => (HttpResponse.invalidNonce, nonces)
    | some nonce =>
        if nonce = "" then (HttpResponse.invalidNonce, nonces)
        else
          let r := consumeNonce nowMs nonces nonce
          if r.1 then
            (HttpResponse.sessionToken (createSessionToken cfg.sessionSecret nowMs), r.2)
          else (HttpResponse.invalidNonce, r.2)
  else (HttpResponse.sessionToken (createSessionToken cfg.sessionSecret nowMs), nonces)

def accessTokenDot : String := "access_token."

/-- `handleRequest` (src lines 405-465). Environment inputs made explicit:
`freshNonce` (the random value `generateNonce()` would produce), `nowMs`
(`Date.now()`), and `metaOk` (whether `deepgram.toml` is readable with a
`meta` section, deciding `handleMetadata`'s 200/500). -/
def handleRequest (cfg : Config) (freshNonce : String) (nowMs : Nat) (metaOk : Bool)
    (req : Request) (nonces : NonceStore) : HttpResponse × NonceStore :=
  if req.method = "OPTIONS" then (HttpResponse.preflight, nonces)
  else if req.path = "/" ∨ req.path = "/index.html" then
    handleServeIndex cfg freshNonce nowMs nonces
  else if req.method = "GET" ∧ req.path = "/api/session" then
    handleGetSession cfg nowMs req.sessionNonce nonces
  else if req.path = "/api/live-transcription" then
    let upgrade := orDefault req.upgradeHeader ""
    if strToLower upgrade ≠ "websocket" then (HttpResponse.expectedWebSocket, nonces)
    else
      let protocols := orDefault req.secWebSocketProtocol ""
      let protocolList : List String :=
        (splitOnChar ',' protocols.data).map (fun cs => ⟨trimChars cs⟩)
      match protocolList.find? (fun p => startsWithChars accessTokenDot.data p.data) with
      | none => (HttpResponse.unauthorized, nonces)
      | some tokenProto =>
          let jwtToken : String := ⟨tokenProto.data.drop accessTokenDot.length⟩
          if verifySessionToken cfg.sessionSecret nowMs jwtToken then
            (HttpResponse.wsUpgrade tokenProto req.queryParams, nonces)
          else (HttpResponse.unauthorized, nonces)
  else if req.method = "GET" ∧ req.path = "/api/metadata" then
    (HttpResponse.metadataResponse metaOk, nonces)
  else (HttpResponse.notFound, nonces)

/-! # Theorems -/

/-! ## Digit encoding and token parsing lemmas -/

theorem charVal_digitChar {d : Nat} (h : d < 10) : charVal (digitChar d) = d := by
  interval_cases d <;> decide

theorem isDigitChar_digitChar {d : Nat} (h : d < 10) : isDigitChar (digitChar d) = true := by
  interval_cases d <;> decide

theorem ofDigits_toDigitsAux : ∀ fuel n : Nat, n ≤ fuel →
    ofDigits10 (toDigitsAux fuel n) = n := by
  intro fuel
  induction fuel with
  | zero =>
      intro n hn
      have : n = 0 := Nat.le_zero.mp hn
      subst this
      rfl
  | succ f ih =>
      intro n hn
      by_cases h0 : n = 0
      · subst h0; simp [toDigitsAux, ofDigits10]
      · have hlt : n / 10 < n := Nat.div_lt_self (Nat.pos_of_ne_zero h0) (by norm_num)
        have hdiv : n / 10 ≤ f := by omega
        simp only [toDigitsAux, h0, if_false, ofDigits10, ih _ hdiv]
        exact Nat.mod_add_div n 10

theorem mem_toDigitsAux_lt : ∀ fuel n d : Nat, d ∈ toDigitsAux fuel n → d < 10 := by
  intro fuel
  induction fuel with
  | zero => intro n d h; simp [toDigitsAux] at h
  | succ f ih =>
      intro n d h
      by_cases h0 : n = 0
      · subst h0; simp [toDigitsAux] at h
      · simp only [toDigitsAux, h0, if_false, List.mem_cons] at h
        rcases h with h | h
        · subst h; exact Nat.mod_lt _ (by norm_num)
        · exact ih _ _ h

theorem digitsVal_natToChars (n : Nat) : digitsVal (natToChars n) = n := by
  unfold digitsVal natToChars
  rw [List.map_map]
  have hcongr : ∀ d ∈ toDigits10 n, (charVal ∘ digitChar) d = d := fun d hd =>
    charVal_digitChar (mem_toDigitsAux_lt n n d hd)
  rw [List.map_congr_left hcongr, List.map_id']
  exact ofDigits_toDigitsAux n n le_rfl

theorem natToChars_digits (n : Nat) : ∀ c ∈ natToChars n, isDigitChar c = true := by
  intro c hc
  simp only [natToChars, List.mem_map] at hc
  obtain ⟨d, hd, rfl⟩ := hc
  exact isDigitChar_digitChar (mem_toDigitsAux_lt n n d hd)

theorem readDigits_append : ∀ ds rest : List Char, (∀ c ∈ ds, isDigitChar c = true) →
    (∀ c ∈ rest.take 1, isDigitChar c = false) → readDigits (ds ++ rest) = (ds, rest) := by
  intro ds
  induction ds with
  | nil =>
      intro rest _ h2
      cases rest with
      | nil => rfl
      | cons c cs =>
          have hc := h2 c (by simp)
          simp [readDigits, hc]
  | cons d ds ih =>
      intro rest h1 h2
      have hd := h1 d (by simp)
      simp only [List.cons_append, readDigits, hd, if_true]
      rw [List.append_eq, ih rest (fun c hc => h1 c (by simp [hc])) h2]

theorem parse_encode (a b c : Nat) : parseToken (encodeToken a b c).data = some (a, b, c) := by
  have hsemi : ∀ (t : List Char) (x : Char), x ∈ (';' :: t).take 1 → isDigitChar x = false := by
    intro t x hx
    simp only [List.take_succ_cons, List.take_zero, List.mem_singleton] at hx
    subst hx
    decide
  have h1 : readDigits (natToChars a ++ ';' :: (natToChars b ++ ';' :: natToChars c))
      = (natToChars a, ';' :: (natToChars b ++ ';' :: natToChars c)) :=
    readDigits_append _ _ (natToChars_digits a) (hsemi _)
  have h2 : readDigits (natToChars b ++ ';' :: natToChars c)
      = (natToChars b, ';' :: natToChars c) :=
    readDigits_append _ _ (natToChars_digits b) (hsemi _)
  have h3 : readDigits (natToChars c) = (natToChars c, []) := by
    have := readDigits_append (natToChars c) [] (natToChars_digits c) (by simp)
    simpa using this
  show parseToken (natToChars a ++ ';' :: (natToChars b ++ ';' :: natToChars c)) = _
  simp [parseToken, h1, h2, h3, digitsVal_natToChars]

/-! ## Nonce store lemmas -/

theorem lookupNonce_eraseNonce (s : NonceStore) (k : String) :
    lookupNonce (eraseNonce s k) k = none := by
  induction s with
  | nil => rfl
  | cons p rest ih =>
      by_cases h : p.1 = k
      · simpa [eraseNonce, h] using ih
      · simpa [eraseNonce, h, lookupNonce] using ih

theorem lookupNonce_setNonce (s : NonceStore) (k : String) (e : Nat) :
    lookupNonce (setNonce s k e) k = some e := by
  simp [setNonce, lookupNonce]

/-- Every store produced by the issuance path satisfies `NoncesWF`: stored
expiries are `now + NONCE_TTL_MS > 0`, so the `0 < e` hypothesis below
holds on every reachable store. -/
theorem handleServeIndex_preserves_wf (cfg : Config) (freshNonce : String) (nowMs : Nat)
    (nonces : NonceStore) (h : NoncesWF nonces) :
    NoncesWF (handleServeIndex cfg freshNonce nowMs nonces).2 := by
  unfold handleServeIndex
  by_cases htpl : cfg.hasIndexTemplate
  · simp only [htpl, if_true]
    intro p hp
    simp only [setNonce, eraseNonce, sweepNonces, List.mem_cons, List.mem_filter] at hp
    rcases hp with rfl | ⟨⟨hmem, _⟩, _⟩
    · simp [NONCE_TTL_MS]
    · exact h p hmem
  · simp only [htpl, if_false]
    exact h

theorem consumeNonce_fresh (nowMs : Nat) (s : NonceStore) (v : String) (now0 : Nat)
    (hlt : nowMs < now0 + NONCE_TTL_MS) :
    consumeNonce nowMs (setNonce s v (now0 + NONCE_TTL_MS)) v
      = (true, eraseNonce (setNonce s v (now0 + NONCE_TTL_MS)) v) := by
  have hne : now0 + NONCE_TTL_MS ≠ 0 := by simp [NONCE_TTL_MS]
  simp [consumeNonce, lookupNonce_setNonce, hne, hlt]

/-- C2: `consumeNonce` removes a present entry and returns true iff it had
not expired: an unknown value yields false without touching the store; a
present-but-expired nonce yields false and is still removed; a nonce stored
by the issuance path (expiry `now0 + NONCE_TTL_MS`) consumes to true before
its expiry; and after any consume of a value, every repeated consume of the
same value returns false. -/
theorem nonce_consume_spec (nowMs : Nat) (s : NonceStore) (v : String) :
    (lookupNonce s v = none → consumeNonce nowMs s v = (false, s)) ∧
    (∀ e, lookupNonce s v = some e → 0 < e → e ≤ nowMs →
      consumeNonce nowMs s v = (false, eraseNonce s v)) ∧
    (∀ now0, nowMs < now0 + NONCE_TTL_MS →
      consumeNonce nowMs (setNonce s v (now0 + NONCE_TTL_MS)) v
        = (true, eraseNonce (setNonce s v (now0 + NONCE_TTL_MS)) v)) ∧
    (∀ now2, (consumeNonce now2 (consumeNonce nowMs s v).2 v).1 = false) := by
  refine ⟨fun h => by simp [consumeNonce, h], fun e he h0 hexp => ?_,
    fun now0 hlt => consumeNonce_fresh nowMs s v now0 hlt, fun now2 => ?_⟩
  · have hne : e ≠ 0 := Nat.pos_iff_ne_zero.mp h0
    have hnot : ¬ nowMs < e := by omega
    simp [consumeNonce, he, hne, hnot]
  · match h : lookupNonce s v with
    | none => simp [consumeNonce, h]
    | some e =>
        by_cases h0 : e = 0
        · subst h0
          simp [consumeNonce, h]
        · simp [consumeNonce, h, h0, lookupNonce_eraseNonce]

theorem nonce_consume_spec_witness :
    consumeNonce 5 (setNonce [] "a" (0 + NONCE_TTL_MS)) "a"
      = (true, eraseNonce (setNonce [] "a" (0 + NONCE_TTL_MS)) "a") :=
  (nonce_consume_spec 5 [] "a").2.2.1 0 (by decide)

/-! ## Token issuer/verifier claims -/

/-- C7: the token verifier is a total boolean function (the source wraps
`jose.jwtVerify` in try/catch, so no exception escapes): it returns false
on every malformed token (one that does not parse), on every token whose
embedded signature is not the MAC of its claims under the process secret —
in particular on every issued token whose signature field was modified —
and on every token whose expiry is not in the future. -/
theorem token_verify_rejects (secret : String) (nowMs : Nat) :
    (∀ token : String, parseToken token.data = none →
      verifySessionToken secret nowMs token = false) ∧
    (∀ (token : String) (iat expiry sig : Nat),
      parseToken token.data = some (iat, expiry, sig) →
      (sig ≠ macSig secret iat expiry ∨ expiry ≤ nowMs / 1000) →
      verifySessionToken secret nowMs token = false) ∧
    (∀ iat expiry sig : Nat, sig ≠ macSig secret iat expiry →
      verifySessionToken secret nowMs (encodeToken iat expiry sig) = false) := by
  refine ⟨fun token h => by simp [verifySessionToken, h],
          fun token iat expiry sig h hbad => ?_, fun iat expiry sig h => ?_⟩
  · rcases hbad with h' | h'
    · simp [verifySessionToken, h, h']
    · have : ¬ nowMs / 1000 < expiry := by omega
      simp [verifySessionToken, h, this]
  · simp [verifySessionToken, parse_encode, h]

theorem token_verify_rejects_witness :
    verifySessionToken "s" 0 "garbage" = false :=
  (token_verify_rejects "s" 0).1 "garbage" (by decide)

/-- C8: round trip of issuer and verifier under one process-wide secret: a
token from `createSessionToken` verifies true at any time strictly before
its embedded one-hour expiry (in particular immediately after issuance) and
false from the moment the expiry has elapsed. -/
theorem token_roundtrip (secret : String) (issueMs checkMs : Nat) :
    (checkMs / 1000 < issueMs / 1000 + JWT_EXPIRY_S →
      verifySessionToken secret checkMs (createSessionToken secret issueMs) = true) ∧
    (issueMs / 1000 + JWT_EXPIRY_S ≤ checkMs / 1000 →
      verifySessionToken secret checkMs (createSessionToken secret issueMs) = false) := by
  constructor
  · intro h
    simp [verifySessionToken, createSessionToken, parse_encode, h]
  · intro h
    have : ¬ checkMs / 1000 < issueMs / 1000 + JWT_EXPIRY_S := by omega
    simp [verifySessionToken, createSessionToken, parse_encode, this]

theorem token_roundtrip_witness :
    verifySessionToken "s" 1000 (createSessionToken "s" 0) = true ∧
    verifySessionToken "s" 3600000 (createSessionToken "s" 0) = false :=
  ⟨(token_roundtrip "s" 0 1000).1 (by decide), (token_roundtrip "s" 0 3600000).2 (by decide)⟩

/-! ## Proxy session lemmas -/

theorem stepSession_clientMessage {α : Type} (s : SessionState) (d : α) :
    stepSession s (SessionEvent.clientMessage d)
      = ((if s.upstream = ReadyState.OPEN then [ProxyAction.sendToUpstream d] else []), s) := by
  by_cases h : s.upstream = ReadyState.OPEN <;>
    simp [stepSession, eventEffect, handleEvent, h, applyAction]

theorem stepSession_upstreamMessage {α : Type} (s : SessionState) (d : α) :
    stepSession s (SessionEvent.upstreamMessage d)
      = ((if s.client = ReadyState.OPEN then [ProxyAction.sendToClient d] else []), s) := by
  by_cases h : s.client = ReadyState.OPEN <;>
    simp [stepSession, eventEffect, handleEvent, h, applyAction]

theorem applyClose_ne_open (x : ReadyState) : applyClose x ≠ ReadyState.OPEN := by
  cases x <;> simp [applyClose]

theorem down_after_close_event {α : Type} (s : SessionState) (e : SessionEvent α)
    (he : isCloseOrError e = true) : Down (stepSession s e).2 := by
  cases e with
  | clientMessage d => simp [isCloseOrError] at he
  | upstreamMessage d => simp [isCloseOrError] at he
  | clientClose =>
      simp [stepSession, eventEffect, handleEvent, applyAction, Down, applyClose_ne_open]
  | clientError =>
      simp [stepSession, eventEffect, handleEvent, applyAction, Down, applyClose_ne_open]
  | upstreamClose =>
      by_cases hc : s.client = ReadyState.OPEN <;>
        simp [stepSession, eventEffect, handleEvent, applyAction, Down, applyClose_ne_open, hc]
  | upstreamError =>
      by_cases hc : s.client = ReadyState.OPEN <;>
        simp [stepSession, eventEffect, handleEvent, sendErrorActs, applyAction, Down,
          applyClose_ne_open, hc]

theorem down_preserved {α : Type} (s : SessionState) (e : SessionEvent α) (hd : Down s) :
    Down (stepSession s e).2 := by
  cases e with
  | clientMessage d => rw [stepSession_clientMessage]; exact hd
  | upstreamMessage d => rw [stepSession_upstreamMessage]; exact hd
  | clientClose => exact down_after_close_event _ _ rfl
  | clientError => exact down_after_close_event _ _ rfl
  | upstreamClose => exact down_after_close_event _ _ rfl
  | upstreamError => exact down_after_close_event _ _ rfl

theorem down_reachable {α : Type} {t s' : SessionState} (hd : Down t)
    (hr : Reachable (α := α) t s') : Down s' := by
  induction hr with
  | refl => exact hd
  | tail e _ ih => exact down_preserved _ e ih

theorem no_forward_when_down {α : Type} (s : SessionState) (hd : Down s) (d : α) :
    (stepSession s (SessionEvent.clientMessage d)).1 = [] ∧
    (stepSession s (SessionEvent.upstreamMessage d)).1 = [] := by
  rw [stepSession_clientMessage, stepSession_upstreamMessage]
  simp [hd.1, hd.2]

/-- C1: in any session state reachable from the relaying phase, each of the
four teardown events — client close, client error, upstream close, upstream
error — leaves both legs non-open (the handlers close the opposite socket:
client events always issue `closeUpstream`, upstream events issue a close
of the client whenever it is still open), and from then on every reachable
state keeps both legs non-open and forwards no message in either
direction. -/
theorem proxy_session_teardown {α : Type} (s : SessionState) (e : SessionEvent α)
    (hs : Reachable (α := α) relayingStart s) (he : isCloseOrError e = true) :
    Down (stepSession s e).2 ∧
    ((e = SessionEvent.clientClose ∨ e = SessionEvent.clientError) →
      ProxyAction.closeUpstream ∈ (stepSession s e).1) ∧
    ((e = SessionEvent.upstreamClose ∨ e = SessionEvent.upstreamError) →
      s.client = ReadyState.OPEN → ProxyAction.closeClient ∈ (stepSession s e).1) ∧
    (∀ s' : SessionState, Reachable (α := α) (stepSession s e).2 s' →
      Down s' ∧ ∀ d : α,
        (stepSession s' (SessionEvent.clientMessage d)).1 = [] ∧
        (stepSession s' (SessionEvent.upstreamMessage d)).1 = []) := by
  refine ⟨down_after_close_event s e he, ?_, ?_, ?_⟩
  · rintro (rfl | rfl) <;> simp [stepSession, eventEffect, handleEvent]
  · rintro (rfl | rfl) hc <;>
      simp [stepSession, eventEffect, handleEvent, sendErrorActs, hc]
  · intro s' hr
    have hd := down_reachable (down_after_close_event s e he) hr
    exact ⟨hd, fun d => no_forward_when_down s' hd d⟩

theorem proxy_session_teardown_witness :
    Down (stepSession (α := Nat) relayingStart SessionEvent.clientClose).2 ∧
    ProxyAction.closeUpstream
      ∈ (stepSession (α := Nat) relayingStart SessionEvent.clientClose).1 ∧
    (stepSession (α := Nat) (stepSession (α := Nat) relayingStart SessionEvent.clientClose).2
      (SessionEvent.upstreamMessage 42)).1 = [] := by
  have h := proxy_session_teardown (α := Nat) relayingStart SessionEvent.clientClose
    (Reachable.refl _) rfl
  exact ⟨h.1, h.2.1 (Or.inl rfl), ((h.2.2.2 _ (Reachable.refl _)).2 42).2⟩

/-- C4: during relaying, a message from the client is forwarded — as the
identical payload, with no transformation — to the upstream socket exactly
when the upstream socket is OPEN, and otherwise dropped with no state
change and no buffering; symmetrically for upstream messages and the client
socket. -/
theorem forwarding_verbatim_iff_open {α : Type} (s : SessionState) (d : α) :
    stepSession s (SessionEvent.clientMessage d)
      = ((if s.upstream = ReadyState.OPEN then [ProxyAction.sendToUpstream d] else []), s) ∧
    stepSession s (SessionEvent.upstreamMessage d)
      = ((if s.client = ReadyState.OPEN then [ProxyAction.sendToClient d] else []), s) :=
  ⟨stepSession_clientMessage s d, stepSession_upstreamMessage s d⟩

/-- C5: when session setup fails (upstream dial failure or any thrown
error) with the client socket still open, the catch handler emits exactly
one error frame, of shape `{type:"Error", description, code:"CONNECTION_FAILED"}`,
then closes the client socket with close code 3000 and reason
"Setup failed" (and closes the upstream handle when one exists); the
handler returns normally, so the failure is contained to this session. -/
theorem setup_failure_error_frame {α : Type} (client : ReadyState)
    (deepgram : Option ReadyState) (errMessage : String)
    (h : client = ReadyState.OPEN) :
    handleSetupFailure (α := α) client deepgram errMessage
      = [ProxyAction.sendFrame
          { type := "Error", description := errMessage, code := "CONNECTION_FAILED" },
         ProxyAction.closeClientWith 3000 "Setup failed"]
        ++ (match deepgram with
            | some _ => [ProxyAction.closeUpstream]
            | none => []) ∧
    errorFrames (handleSetupFailure (α := α) client deepgram errMessage)
      = [{ type := "Error", description := errMessage, code := "CONNECTION_FAILED" }] := by
  subst h
  cases deepgram <;> simp [handleSetupFailure, sendErrorActs, errorFrames]

theorem setup_failure_error_frame_witness :
    handleSetupFailure (α := Nat) ReadyState.OPEN (some ReadyState.CONNECTING)
        "Failed to connect to Deepgram"
      = [ProxyAction.sendFrame
          { type := "Error", description := "Failed to connect to Deepgram",
            code := "CONNECTION_FAILED" },
         ProxyAction.closeClientWith 3000 "Setup failed", ProxyAction.closeUpstream] ∧
    errorFrames (handleSetupFailure (α := Nat) ReadyState.OPEN (some ReadyState.CONNECTING)
        "Failed to connect to Deepgram")
      = [{ type := "Error", description := "Failed to connect to Deepgram",
           code := "CONNECTION_FAILED" }] := by
  have h := setup_failure_error_frame (α := Nat) ReadyState.OPEN (some ReadyState.CONNECTING)
    "Failed to connect to Deepgram" rfl
  exact ⟨h.1, h.2⟩

/-! ## Router claims -/

/-- C3: on the `/api/live-transcription` path (for non-preflight requests —
OPTIONS requests are answered 204 by the CORS preflight branch before any
route matching), a request that does not declare a WebSocket upgrade gets
426; otherwise, when no entry of the comma-separated, trimmed
`sec-websocket-protocol` list starts with `access_token.`, the request gets
401 and no proxy session is created; when such an entry exists but the
token after the prefix fails verification, 401 likewise; and when the token
verifies, the upgrade completes echoing back the matched subprotocol and
the socket plus query parameters are handed to the proxy session. The nonce
store is never touched on this path. -/
theorem gatekeeper_spec (cfg : Config) (fresh : String) (nowMs : Nat) (metaOk : Bool)
    (req : Request) (nonces : NonceStore)
    (hpath : req.path = "/api/live-transcription") (hm : req.method ≠ "OPTIONS") :
    (handleRequest cfg fresh nowMs metaOk req nonces).2 = nonces ∧
    (strToLower (orDefault req.upgradeHeader "") ≠ "websocket" →
      (handleRequest cfg fresh nowMs metaOk req nonces).1 = HttpResponse.expectedWebSocket ∧
      statusOf (handleRequest cfg fresh nowMs metaOk req nonces).1 = 426 ∧
      createsSession (handleRequest cfg fresh nowMs metaOk req nonces).1 = false) ∧
    (strToLower (orDefault req.upgradeHeader "") = "websocket" →
      (((splitOnChar ',' (orDefault req.secWebSocketProtocol "").data).map
          (fun cs => (⟨trimChars cs⟩ : String))).find?
            (fun p => startsWithChars accessTokenDot.data p.data) = none →
        (handleRequest cfg fresh nowMs metaOk req nonces).1 = HttpResponse.unauthorized ∧
        statusOf (handleRequest cfg fresh nowMs metaOk req nonces).1 = 401 ∧
        createsSession (handleRequest cfg fresh nowMs metaOk req nonces).1 = false) ∧
      (∀ tokenProto,
        ((splitOnChar ',' (orDefault req.secWebSocketProtocol "").data).map
            (fun cs => (⟨trimChars cs⟩ : String))).find?
              (fun p => startsWithChars accessTokenDot.data p.data) = some tokenProto →
        (verifySessionToken cfg.sessionSecret nowMs
            (⟨tokenProto.data.drop accessTokenDot.length⟩ : String) = false →
          (handleRequest cfg fresh nowMs metaOk req nonces).1 = HttpResponse.unauthorized ∧
          statusOf (handleRequest cfg fresh nowMs metaOk req nonces).1 = 401 ∧
          createsSession (handleRequest cfg fresh nowMs metaOk req nonces).1 = false) ∧
        (verifySessionToken cfg.sessionSecret nowMs
            (⟨tokenProto.data.drop accessTokenDot.length⟩ : String) = true →
          (handleRequest cfg fresh nowMs metaOk req nonces).1
              = HttpResponse.wsUpgrade tokenProto req.queryParams ∧
          statusOf (handleRequest cfg fresh nowMs metaOk req nonces).1 = 101 ∧
          createsSession (handleRequest cfg fresh nowMs metaOk req nonces).1 = true))) := by
  have hp1 : ¬(req.path = "/" ∨ req.path = "/index.html") := by simp [hpath]
  have hp2 : ¬(req.method = "GET" ∧ req.path = "/api/session") := by simp [hpath]
  by_cases hu : strToLower (orDefault req.upgradeHeader "") = "websocket"
  · rcases hf : ((splitOnChar ',' (orDefault req.secWebSocketProtocol "").data).map
        (fun cs => (⟨trimChars cs⟩ : String))).find?
          (fun p => startsWithChars accessTokenDot.data p.data) with _ | tokenProto
    · have hR : handleRequest cfg fresh nowMs metaOk req nonces
          = (HttpResponse.unauthorized, nonces) := by
        simp [handleRequest, hm, hp1, hp2, hpath, hu, hf]
      refine ⟨by simp [hR], fun h => absurd hu h,
        fun _ => ⟨fun _ => by simp [hR, statusOf, createsSession], ?_⟩⟩
      intro tp htp
      exact absurd (htp.symm.trans hf) (by simp)
    · by_cases hv : verifySessionToken cfg.sessionSecret nowMs
          (⟨tokenProto.data.drop accessTokenDot.length⟩ : String) = true
      · have hR : handleRequest cfg fresh nowMs metaOk req nonces
            = (HttpResponse.wsUpgrade tokenProto req.queryParams, nonces) := by
          simp [handleRequest, hm, hp1, hp2, hpath, hu, hf, hv]
        refine ⟨by simp [hR], fun h => absurd hu h, fun _ => ⟨fun h => ?_, fun tp htp => ?_⟩⟩
        · exact absurd (h.symm.trans hf) (by simp)
        · have htp' : tp = tokenProto := Option.some_inj.mp (htp.symm.trans hf)
          subst htp'
          exact ⟨fun hvf => absurd hv (by simp [hvf]),
                 fun _ => by simp [hR, statusOf, createsSession]⟩
      · have hv' : verifySessionToken cfg.sessionSecret nowMs
            (⟨tokenProto.data.drop accessTokenDot.length⟩ : String) = false := by
          cases hb : verifySessionToken cfg.sessionSecret nowMs
              (⟨tokenProto.data.drop accessTokenDot.length⟩ : String)
          · rfl
          · exact absurd hb hv
        have hR : handleRequest cfg fresh nowMs metaOk req nonces
            = (HttpResponse.unauthorized, nonces) := by
          simp [handleRequest, hm, hp1, hp2, hpath, hu, hf, hv']
        refine ⟨by simp [hR], fun h => absurd hu h, fun _ => ⟨fun h => ?_, fun tp htp => ?_⟩⟩
        · exact absurd (h.symm.trans hf) (by simp)
        · have htp' : tp = tokenProto := Option.some_inj.mp (htp.symm.trans hf)
          subst htp'
          exact ⟨fun _ => by simp [hR, statusOf, createsSession],
                 fun hvt => absurd hvt hv⟩
  · have hR : handleRequest cfg fresh nowMs metaOk req nonces
        = (HttpResponse.expectedWebSocket, nonces) := by
      simp [handleRequest, hm, hp1, hp2, hpath, hu]
    exact ⟨by simp [hR], fun _ => by simp [hR, statusOf, createsSession],
           fun h => absurd h hu⟩

theorem gatekeeper_spec_witness :
    (handleRequest { sessionSecret := "s", requireNonce := true, hasIndexTemplate := true }
        "n" 5 true
        { method := "GET", path := "/api/live-transcription",
          upgradeHeader := some "WebSocket",
          secWebSocketProtocol := some ("foo, access_token." ++ createSessionToken "s" 5),
          sessionNonce := none, queryParams := [("model", "m1")] } []).1
      = HttpResponse.wsUpgrade ("access_token." ++ createSessionToken "s" 5) [("model", "m1")] := by
  have h := gatekeeper_spec
    { sessionSecret := "s", requireNonce := true, hasIndexTemplate := true } "n" 5 true
    { method := "GET", path := "/api/live-transcription",
      upgradeHeader := some "WebSocket",
      secWebSocketProtocol := some ("foo, access_token." ++ createSessionToken "s" 5),
      sessionNonce := none, queryParams := [("model", "m1")] } []
    rfl (by decide)
  have h2 := ((h.2.2 (by decide)).2 ("access_token." ++ createSessionToken "s" 5)
    (by decide)).2 (by decide)
  exact h2.1

/-- C6: for a GET request to `/api/session`: with nonce enforcement on
(an external `SESSION_SECRET` was configured), a missing `X-Session-Nonce`
header or one that fails consumption gets the 403 `INVALID_NONCE`
structured error and a successful consumption gets a 200 with a freshly
signed token; a nonce freshly stored by the index page issuance path
consumes to a 200 before its TTL, and replaying the same nonce on the
resulting store gets 403; with enforcement off, a token is always issued
and the store is untouched. -/
theorem session_endpoint_spec (cfg : Config) (fresh : String) (nowMs : Nat) (metaOk : Bool)
    (req : Request) (nonces : NonceStore)
    (hm : req.method = "GET") (hp : req.path = "/api/session") :
    (cfg.requireNonce = true →
      (req.sessionNonce = none →
        handleRequest cfg fresh nowMs metaOk req nonces = (HttpResponse.invalidNonce, nonces)) ∧
      (∀ n, req.sessionNonce = some n → n ≠ "" →
        ((consumeNonce nowMs nonces n).1 = false →
          handleRequest cfg fresh nowMs metaOk req nonces
            = (HttpResponse.invalidNonce, (consumeNonce nowMs nonces n).2)) ∧
        ((consumeNonce nowMs nonces n).1 = true →
          handleRequest cfg fresh nowMs metaOk req nonces
            = (HttpResponse.sessionToken (createSessionToken cfg.sessionSecret nowMs),
               (consumeNonce nowMs nonces n).2)))) ∧
    (cfg.requireNonce = false →
      handleRequest cfg fresh nowMs metaOk req nonces
        = (HttpResponse.sessionToken (createSessionToken cfg.sessionSecret nowMs), nonces)) ∧
    (statusOf HttpResponse.invalidNonce = 403 ∧
     errorInfo HttpResponse.invalidNonce
        = some { type := "AuthenticationError",
                 description := "Valid session nonce required. Please refresh the page.",
                 code := "INVALID_NONCE" } ∧
     ∀ t, statusOf (HttpResponse.sessionToken t) = 200) ∧
    (∀ n nowServe, cfg.requireNonce = true → cfg.hasIndexTemplate = true → n ≠ "" →
      req.sessionNonce = some n → nowMs < nowServe + NONCE_TTL_MS →
      (handleRequest cfg fresh nowMs metaOk req (handleServeIndex cfg n nowServe nonces).2).1
          = HttpResponse.sessionToken (createSessionToken cfg.sessionSecret nowMs) ∧
      (handleRequest cfg fresh nowMs metaOk req
          (handleRequest cfg fresh nowMs metaOk req
            (handleServeIndex cfg n nowServe nonces).2).2).1
          = HttpResponse.invalidNonce) := by
  have hroute : ∀ ns : NonceStore, handleRequest cfg fresh nowMs metaOk req ns
      = handleGetSession cfg nowMs req.sessionNonce ns := by
    intro ns
    simp [handleRequest, hm, hp]
  refine ⟨fun hreq => ⟨fun hnone => ?_, fun n hn hne => ?_⟩, fun hreq => ?_,
          ⟨rfl, rfl, fun t => rfl⟩, fun n nowServe hreq htpl hne hn hlt => ?_⟩
  · rw [hroute, handleGetSession.eq_def, if_pos hreq, hnone]
  · constructor
    · intro hcf
      rw [hroute, handleGetSession.eq_def, if_pos hreq, hn]
      simp [hne, hcf]
    · intro hct
      rw [hroute, handleGetSession.eq_def, if_pos hreq, hn]
      simp [hne, hct]
  · rw [hroute, handleGetSession.eq_def]
    simp [hreq]
  · have hsi : (handleServeIndex cfg n nowServe nonces).2
        = setNonce (sweepNonces nowServe nonces) n (nowServe + NONCE_TTL_MS) := by
      simp [handleServeIndex, htpl]
    have hc1 : consumeNonce nowMs (handleServeIndex cfg n nowServe nonces).2 n
        = (true, eraseNonce (handleServeIndex cfg n nowServe nonces).2 n) := by
      rw [hsi]
      exact consumeNonce_fresh nowMs (sweepNonces nowServe nonces) n nowServe hlt
    have h1 : handleRequest cfg fresh nowMs metaOk req (handleServeIndex cfg n nowServe nonces).2
        = (HttpResponse.sessionToken (createSessionToken cfg.sessionSecret nowMs),
           eraseNonce (handleServeIndex cfg n nowServe nonces).2 n) := by
      rw [hroute, handleGetSession.eq_def, if_pos hreq, hn]
      simp [hne, hc1]
    refine ⟨by rw [h1], ?_⟩
    have hc2 : lookupNonce (eraseNonce (handleServeIndex cfg n nowServe nonces).2 n) n
        = none := lookupNonce_eraseNonce _ n
    rw [h1, hroute, handleGetSession.eq_def, if_pos hreq, hn]
    simp [hne, consumeNonce, hc2]

theorem session_endpoint_spec_witness :
    (handleRequest { sessionSecret := "s", requireNonce := true, hasIndexTemplate := true }
        "f" 5 true
        { method := "GET", path := "/api/session", upgradeHeader := none,
          secWebSocketProtocol := none, sessionNonce := some "a", queryParams := [] }
        (handleServeIndex
          { sessionSecret := "s", requireNonce := true, hasIndexTemplate := true }
          "a" 0 []).2).1
      = HttpResponse.sessionToken (createSessionToken "s" 5) ∧
    (handleRequest { sessionSecret := "s", requireNonce := true, hasIndexTemplate := true }
        "f" 5 true
        { method := "GET", path := "/api/session", upgradeHeader := none,
          secWebSocketProtocol := none, sessionNonce := some "a", queryParams := [] }
        (handleRequest { sessionSecret := "s", requireNonce := true, hasIndexTemplate := true }
          "f" 5 true
          { method := "GET", path := "/api/session", upgradeHeader := none,
            secWebSocketProtocol := none, sessionNonce := some "a", queryParams := [] }
          (handleServeIndex
            { sessionSecret := "s", requireNonce := true, hasIndexTemplate := true }
            "a" 0 []).2).2).1
      = HttpResponse.invalidNonce := by
  have h := session_endpoint_spec
    { sessionSecret := "s", requireNonce := true, hasIndexTemplate := true } "f" 5 true
    { method := "GET", path := "/api/session", upgradeHeader := none,
      secWebSocketProtocol := none, sessionNonce := some "a", queryParams := [] }
    [] rfl rfl
  exact h.2.2.2 "a" 0 rfl rfl (by decide) rfl (by decide)

/-- C9: `buildDeepgramUrl` interpolates the client-supplied parameter
values verbatim, with no URL-encoding or sanitisation, so a value
containing `&` and `=` injects additional query parameters of the client's
choosing into the upstream URL: with `model = "nova-2&diarize=true"` the
upstream URL carries seven parameters, including a `diarize` parameter
never named by the server. -/
theorem deepgram_url_injection :
    buildDeepgramUrl [("model", "nova-2&diarize=true")]
      = "wss://api.deepgram.com/v1/listen?model=nova-2&diarize=true&encoding=linear16&sample_rate=16000&channels=1&punctuate=true&interim_results=true" ∧
    queryParamNames (buildDeepgramUrl [("model", "nova-2&diarize=true")])
      = ["model", "diarize", "encoding", "sample_rate", "channels", "punctuate",
         "interim_results"] ∧
    (queryParamNames (buildDeepgramUrl [("model", "nova-2&diarize=true")])).length = 7 := by
  refine ⟨by decide, by decide, by decide⟩

/-- C10 counterexample: when the frontend index template was not loaded at
startup (`indexHtmlTemplate = null`, the dev mode of src lines 90-97), a
POST request to `/` is routed to `handleServeIndex` but answers 404
"Frontend not built" and stores no nonce at all — the store stays empty —
contradicting the claim that a fresh nonce is generated and stored on each
such request. -/
theorem index_route_counterexample :
    handleRequest { sessionSecret := "", requireNonce := false, hasIndexTemplate := false }
        "fresh" 0 true
        { method := "POST", path := "/", upgradeHeader := none,
          secWebSocketProtocol := none, sessionNonce := none, queryParams := [] } []
      = (HttpResponse.frontendNotBuilt, []) ∧
    statusOf HttpResponse.frontendNotBuilt = 404 := by
  exact ⟨by decide, rfl⟩

/-- C10 (amended): the router matches the index route by path alone —
every request to `/` or `/index.html` whose method is not OPTIONS is
handled by `handleServeIndex` regardless of its method; when the index
template was loaded at startup, that handler stores a fresh nonce with
expiry `now + NONCE_TTL_MS` in the shared table and serves the page, and
otherwise it returns 404 leaving the table unchanged. -/
theorem index_route_spec (cfg : Config) (fresh : String) (nowMs : Nat) (metaOk : Bool)
    (req : Request) (nonces : NonceStore)
    (hm : req.method ≠ "OPTIONS") (hp : req.path = "/" ∨ req.path = "/index.html") :
    handleRequest cfg fresh nowMs metaOk req nonces = handleServeIndex cfg fresh nowMs nonces ∧
    (∀ m', m' ≠ "OPTIONS" →
      handleRequest cfg fresh nowMs metaOk { req with method := m' } nonces
        = handleRequest cfg fresh nowMs metaOk req nonces) ∧
    (cfg.hasIndexTemplate = true →
      (handleRequest cfg fresh nowMs metaOk req nonces).1 = HttpResponse.indexPage fresh ∧
      lookupNonce (handleRequest cfg fresh nowMs metaOk req nonces).2 fresh
        = some (nowMs + NONCE_TTL_MS)) ∧
    (cfg.hasIndexTemplate = false →
      handleRequest cfg fresh nowMs metaOk req nonces
        = (HttpResponse.frontendNotBuilt, nonces)) := by
  have hroute : handleRequest cfg fresh nowMs metaOk req nonces
      = handleServeIndex cfg fresh nowMs nonces := by
    simp [handleRequest, hm, hp]
  refine ⟨hroute, fun m' hm' => ?_, fun htpl => ?_, fun htpl => ?_⟩
  · rw [hroute]
    simp [handleRequest, hm', hp]
  · rw [hroute]
    simp [handleServeIndex, htpl, lookupNonce_setNonce]
  · rw [hroute]
    simp [handleServeIndex, htpl]

theorem index_route_spec_witness :
    handleRequest { sessionSecret := "s", requireNonce := true, hasIndexTemplate := true }
        "n1" 7 true
        { method := "DELETE", path := "/index.html", upgradeHeader := none,
          secWebSocketProtocol := none, sessionNonce := none, queryParams := [] } []
      = handleServeIndex { sessionSecret := "s", requireNonce := true, hasIndexTemplate := true }
          "n1" 7 [] ∧
    lookupNonce (handleRequest
        { sessionSecret := "s", requireNonce := true, hasIndexTemplate := true } "n1" 7 true
        { method := "DELETE", path := "/index.html", upgradeHeader := none,
          secWebSocketProtocol := none, sessionNonce := none, queryParams := [] } []).2 "n1"
      = some (7 + NONCE_TTL_MS) := by
  have h := index_route_spec
    { sessionSecret := "s", requireNonce := true, hasIndexTemplate := true } "n1" 7 true
    { method := "DELETE", path := "/index.html", upgradeHeader := none,
      secWebSocketProtocol := none, sessionNonce := none, queryParams := [] } []
    (by decide) (Or.inr rfl)
  exact ⟨h.1, (h.2.2.1 rfl).2⟩

end Server
